import Mathlib

/-!
Shallow embedding of the `ers` Go error-enrichment library.

The library manages pointer-based `*Error` values that are mutated in
place by `Wrap`/`Wrapf`.  We model the Go heap explicitly: a `Heap` is a
list of `Error` records, and a pointer is an index into that list
(`ErrVal.ref`).  A Go `error` interface value is either such a pointer or
an opaque foreign error carrying its message (`ErrVal.foreign`); a
possibly-nil `error` is an `Option ErrVal`.

Host-runtime services that are not part of the repository are passed in
as parameters: `runtime.Caller` becomes a function
`Nat → Option (String × Nat)` (returning `none` when `ok` is false), and
`fmt.Sprintf`/`fmt.Errorf` formatting results are passed as the
already-formatted strings.
-/

namespace Ers

/-- `StackLine` from the source: a file path and a line number. -/
structure StackLine where
  File : String
  Line : Nat
deriving DecidableEq, Repr

/-- `StackLine.String()`: `fmt.Sprintf("(%s:%d)", s.File, s.Line)`. -/
def StackLine.toString (s : StackLine) : String :=
  "(" ++ s.File ++ ":" ++ Nat.repr s.Line ++ ")"

/-- A Go `error` interface value (non-nil): either a pointer to an
annotated `Error` record living in the heap, or a foreign/opaque error
identified by its message. -/
inductive ErrVal where
  | foreign : String → ErrVal
  | ref : Nat → ErrVal
deriving DecidableEq, Repr

/-- The `Error` struct from the source: the embedded original `error`
(field `error`), the collected `stackTrace`, and the context strings
(field `additionalInfo`, called `contexts` in the v1.2.0 variant). -/
structure Error where
  error : ErrVal
  stackTrace : List StackLine
  additionalInfo : List String
deriving DecidableEq, Repr

/-- The heap of allocated `Error` records; a `*Error` pointer is an index. -/
abbrev Heap := List Error

/-- `getCaller(skip)`: wraps `runtime.Caller`; on failure returns the
sentinel `StackLine{File: "unknown", Line: 0}`. -/
def getCaller (runtimeCaller : Nat → Option (String × Nat)) (skip : Nat) : StackLine :=
  match runtimeCaller skip with
  | none => { File := "unknown", Line := 0 }
  | some (file, line) => { File := file, Line := line }

/-- `(*Error).AddInfo` / `AddContext`: append context strings. -/
def Error.AddInfo (e : Error) (info : List String) : Error :=
  { e with additionalInfo := e.additionalInfo ++ info }

/-- `(*Error).addToStack`: append one captured stack line. -/
def Error.addToStack (e : Error) (line : StackLine) : Error :=
  { e with stackTrace := e.stackTrace ++ [line] }

/-- `(*Error).Unwrap`: returns the embedded original error. -/
def Error.Unwrap (e : Error) : ErrVal := e.error

/-- `New(fmessage, formatTags...)`: allocates a fresh `Error` whose cause
is the plain error produced by `fmt.Errorf` (the formatted message is the
parameter `fmessage`), with a single captured stack line and no contexts.
Returns the updated heap and the new pointer. -/
def New (rc : Nat → Option (String × Nat)) (fmessage : String) (h : Heap) :
    Heap × ErrVal :=
  let stack := getCaller rc 2
  (h ++ [{ error := ErrVal.foreign fmessage, stackTrace := [stack],
           additionalInfo := [] }],
   ErrVal.ref h.length)

/-- `Wrap(err, details...)`: nil short-circuit; in-place extension of an
existing `*Error`; otherwise allocation of a fresh wrapper around the
foreign error. -/
def Wrap (rc : Nat → Option (String × Nat)) (err : Option ErrVal)
    (details : List String) (h : Heap) : Heap × Option ErrVal :=
  match err with
  | none => (h, none)
  | some e =>
    let stack := getCaller rc 2
    match e with
    | ErrVal.ref r =>
      match h[r]? with
      | some rec => (h.set r ((rec.addToStack stack).AddInfo details),
                     some (ErrVal.ref r))
      | none => (h, some (ErrVal.ref r))
    | ErrVal.foreign m =>
      (h ++ [{ error := ErrVal.foreign m, stackTrace := [stack],
               additionalInfo := details }],
       some (ErrVal.ref h.length))

/-- `Wrapf(err, fmessage, formatTags...)`: like `Wrap` but appends the
single context string produced by `fmt.Sprintf` (the formatted result is
the parameter `fmessage`). -/
def Wrapf (rc : Nat → Option (String × Nat)) (err : Option ErrVal)
    (fmessage : String) (h : Heap) : Heap × Option ErrVal :=
  match err with
  | none => (h, none)
  | some e =>
    let stack := getCaller rc 2
    match e with
    | ErrVal.ref r =>
      match h[r]? with
      | some rec => (h.set r ((rec.addToStack stack).AddInfo [fmessage]),
                     some (ErrVal.ref r))
      | none => (h, some (ErrVal.ref r))
    | ErrVal.foreign m =>
      (h ++ [{ error := ErrVal.foreign m, stackTrace := [stack],
               additionalInfo := [fmessage] }],
       some (ErrVal.ref h.length))

/-- The heap-level view of calling `AddInfo` through a pointer. -/
def AddInfoAt (r : Nat) (info : List String) (h : Heap) : Heap :=
  match h[r]? with
  | some rec => h.set r (rec.AddInfo info)
  | none => h

/-- `strings.TrimSuffix(s, suffix)`: drop `suffix` from the end of `s`
when present, otherwise return `s` unchanged. -/
def trimSuffix (s suffix : String) : String :=
  if suffix.data <:+ s.data then
    String.mk (s.data.take (s.data.length - suffix.data.length))
  else s

/-- The body of `fmt.Sprintf("-> %s", line.String())`: one stack-trace line. -/
def stackLineText (line : StackLine) : String := "-> " ++ line.toString

/-- The body of `fmt.Sprintf("+[%s]", line)`: one context line. -/
def contextLineText (line : String) : String := "+[" ++ line ++ "]"

/-- `(*Error).StackTrace()`: the loop `trace += fmt.Sprintf("-> %s\n",
line.String())` followed by `strings.TrimSuffix(trace, "\n")`. -/
def Error.StackTrace (e : Error) : String :=
  trimSuffix
    (e.stackTrace.foldl (fun trace line => trace ++ (stackLineText line ++ "\n")) "")
    "\n"

/-- `(*Error).AdditionalInfo()`: the loop `info += fmt.Sprintf("+[%s]\n",
line)` followed by `strings.TrimSuffix(info, "\n")`. -/
def Error.AdditionalInfo (e : Error) : String :=
  trimSuffix
    (e.additionalInfo.foldl (fun info line => info ++ (contextLineText line ++ "\n")) "")
    "\n"

/-- The body of `(*Error).Error()` given the text of `e.error.Error()`
(the cause's own rendering). -/
def Error.render (e : Error) (causeMsg : String) : String :=
  let stackTrace := "• stack trace (most recent call last) •" ++ "\n" ++ e.StackTrace
  if 0 < e.additionalInfo.length then
    let additionalInfo :=
      "~ additional context (most recent last) ~" ++ "\n" ++ e.AdditionalInfo
    causeMsg ++ "\n" ++ "\n" ++ additionalInfo ++ "\n" ++ stackTrace
  else
    causeMsg ++ "\n" ++ "\n" ++ stackTrace

/-- `Error()` on an arbitrary error value: a foreign error renders its own
message; a pointer renders via `Error.render`, recursing into the cause.
The heap built by this library is acyclic (a record's cause always
predates the record), so a fuel bound of the heap size suffices; fuel
exhaustion and dangling pointers yield `""` and are unreachable for
heaps produced by the API. -/
def errorText (h : Heap) : Nat → ErrVal → String
  | _, ErrVal.foreign m => m
  | 0, ErrVal.ref _ => ""
  | fuel + 1, ErrVal.ref r =>
    match h[r]? with
    | some rec => rec.render (errorText h fuel rec.error)
    | none => ""

/-- Spec-side description of "one line per entry, newline-joined, no
trailing newline". -/
def joinLines : List String → String
  | [] => ""
  | x :: xs => xs.foldl (fun acc line => acc ++ "\n" ++ line) x

/-- Concatenation of lines each followed by a newline: the raw loop
output of `StackTrace()`/`AdditionalInfo()` before `TrimSuffix`. -/
def concatNL : List String → String
  | [] => ""
  | x :: xs => x ++ "\n" ++ concatNL xs

/-- Invariant: every allocated record has a non-empty stack trace. -/
def TracesNonempty (h : Heap) : Prop := ∀ e ∈ h, e.stackTrace ≠ []

instance (h : Heap) : Decidable (TracesNonempty h) :=
  inferInstanceAs (Decidable (∀ e ∈ h, e.stackTrace ≠ []))

/-- A concrete runtime-caller environment used to instantiate theorems. -/
def sampleRC : Nat → Option (String × Nat) := fun _ => some ("a.go", 7)

/-- A second concrete runtime-caller environment. -/
def sampleRC2 : Nat → Option (String × Nat) := fun _ => some ("b.go", 12)

/-- A third concrete runtime-caller environment. -/
def sampleRC3 : Nat → Option (String × Nat) := fun _ => some ("c.go", 21)

/-- A concrete allocated record used to instantiate theorems. -/
def sampleRec : Error :=
  { error := ErrVal.foreign "base0", stackTrace := [{ File := "f0.go", Line := 1 }],
    additionalInfo := ["c0"] }

/-- A concrete one-record heap used to instantiate theorems. -/
def sampleHeap : Heap := [sampleRec]

end Ers


/-! ## Helper lemmas -/

namespace Ers

theorem data_mk (d : List Char) : (String.mk d).data = d := rfl

theorem data_newline : ("\n" : String).data = ['\n'] := rfl

theorem foldl_line_concat {α : Type} (f : α → String) (l : List α) (acc : String) :
    l.foldl (fun a x => a ++ (f x ++ "\n")) acc = acc ++ concatNL (l.map f) := by
  induction l generalizing acc with
  | nil => simp [concatNL]
  | cons x xs ih =>
    rw [List.map_cons, List.foldl_cons, ih, concatNL]
    apply String.ext
    simp [List.append_assoc]

theorem concatNL_cons_data (x : String) (xs : List String) :
    ∃ a : List Char, (concatNL (x :: xs)).data = a ++ ['\n'] := by
  induction xs generalizing x with
  | nil =>
    refine ⟨x.data, ?_⟩
    simp [concatNL]
  | cons y ys ih =>
    obtain ⟨a, ha⟩ := ih y
    refine ⟨x.data ++ '\n' :: a, ?_⟩
    rw [concatNL]
    simp only [String.data_append, data_newline, ha]
    simp [List.append_assoc]

theorem trimSuffix_newline_data (s : String) (a : List Char)
    (ha : s.data = a ++ ['\n']) : trimSuffix s "\n" = String.mk a := by
  have hcond : ("\n" : String).data <:+ s.data := by
    rw [ha, data_newline]
    exact List.suffix_append a ['\n']
  rw [trimSuffix, if_pos hcond]
  apply String.ext
  rw [data_mk, ha, data_newline]
  simp only [List.length_append, List.length_cons, List.length_nil]
  exact List.take_left' (by simp)

theorem foldl_join_shift (ys : List String) (a b : String) :
    ys.foldl (fun acc line => acc ++ "\n" ++ line) (a ++ b)
      = a ++ ys.foldl (fun acc line => acc ++ "\n" ++ line) b := by
  induction ys generalizing b with
  | nil => simp
  | cons y ys ih =>
    have h2 := ih (b ++ ("\n" ++ y))
    simp only [List.foldl_cons]
    simp only [String.append_assoc] at h2 ⊢
    exact h2

theorem joinLines_cons_cons (x y : String) (ys : List String) :
    joinLines (x :: y :: ys) = x ++ "\n" ++ joinLines (y :: ys) := by
  rw [joinLines, joinLines, List.foldl_cons]
  exact foldl_join_shift ys (x ++ "\n") y

theorem trimSuffix_concatNL (l : List String) :
    trimSuffix (concatNL l) "\n" = joinLines l := by
  induction l with
  | nil =>
    rw [concatNL, joinLines, trimSuffix, if_neg]
    intro hcond
    rw [data_newline] at hcond
    simp at hcond
  | cons x xs ih =>
    cases xs with
    | nil =>
      have ha : (concatNL [x]).data = x.data ++ ['\n'] := by simp [concatNL]
      rw [trimSuffix_newline_data (concatNL [x]) x.data ha, joinLines,
        List.foldl_nil]
    | cons y ys =>
      obtain ⟨a, ha⟩ := concatNL_cons_data y ys
      have hjoin : joinLines (y :: ys) = String.mk a := by
        rw [← ih]
        exact trimSuffix_newline_data _ a ha
      have hdata : (concatNL (x :: y :: ys)).data = (x.data ++ '\n' :: a) ++ ['\n'] := by
        rw [concatNL]
        simp only [String.data_append, data_newline, ha]
        simp [List.append_assoc]
      rw [trimSuffix_newline_data _ _ hdata, joinLines_cons_cons, hjoin]
      apply String.ext
      simp

end Ers

/-! ## Claim theorems -/

namespace Ers

/-- C6: for every Annotated Error, the stack-trace text renders one line
per trace entry in oldest-first order, each line being "-> " followed by
the record's "(path:line)" rendering, newline-joined with no trailing
newline; and the context text renders one line per context entry in
oldest-first order, each wrapped as "+[entry]", newline-joined with no
trailing newline. -/
theorem stackTrace_and_context_text_joined (e : Error) :
    e.StackTrace = joinLines (e.stackTrace.map (fun line => "-> " ++ line.toString)) ∧
    e.AdditionalInfo = joinLines (e.additionalInfo.map (fun c => "+[" ++ c ++ "]")) := by
  constructor
  · rw [Error.StackTrace, foldl_line_concat stackLineText]
    exact trimSuffix_concatNL _
  · rw [Error.AdditionalInfo, foldl_line_concat contextLineText]
    exact trimSuffix_concatNL _

/-- C7: whenever the runtime cannot resolve caller information for the
requested skip depth, `getCaller` does not fail: it returns the sentinel
record with path "unknown" and line 0, whose rendering is exactly
"(unknown:0)". -/
theorem getCaller_sentinel (rc : Nat → Option (String × Nat)) (skip : Nat)
    (hfail : rc skip = none) :
    getCaller rc skip = { File := "unknown", Line := 0 } ∧
    (getCaller rc skip).toString = "(unknown:0)" := by
  have h1 : getCaller rc skip = { File := "unknown", Line := 0 } := by
    rw [getCaller, hfail]
  exact ⟨h1, by rw [h1]; decide⟩

theorem getCaller_sentinel_witness :
    getCaller (fun _ => none) 9999 = { File := "unknown", Line := 0 } ∧
    (getCaller (fun _ => none) 9999).toString = "(unknown:0)" :=
  getCaller_sentinel (fun _ => none) 9999 rfl

/-- C2: `Wrap(nil, ...)` and `Wrapf(nil, ...)` return nil for every
detail list / format string, and for every non-nil input error both
return a non-nil error (nil output iff nil input). -/
theorem wrap_wrapf_nil_transparency (rc : Nat → Option (String × Nat))
    (details : List String) (fmessage : String) (h : Heap) :
    (Wrap rc none details h).2 = none ∧
    (Wrapf rc none fmessage h).2 = none ∧
    (∀ v : ErrVal, (Wrap rc (some v) details h).2.isSome = true ∧
      (Wrapf rc (some v) fmessage h).2.isSome = true) := by
  refine ⟨rfl, rfl, fun v => ?_⟩
  cases v with
  | foreign m => exact ⟨rfl, rfl⟩
  | ref r =>
    cases hr : h[r]? with
    | some rec => simp [Wrap, Wrapf, hr]
    | none => simp [Wrap, Wrapf, hr]

/-- C4: `New` returns a pointer to a freshly allocated Annotated Error
whose cause is the plain error carrying the (host-formatted) message,
whose trace is exactly the one captured caller location, and whose
contexts are empty; it allocates exactly one record and cannot fail. -/
theorem New_fresh_record (rc : Nat → Option (String × Nat))
    (fmessage : String) (h : Heap) :
    (New rc fmessage h).2 = ErrVal.ref h.length ∧
    (New rc fmessage h).1 =
      h ++ [{ error := ErrVal.foreign fmessage, stackTrace := [getCaller rc 2],
              additionalInfo := [] }] ∧
    (New rc fmessage h).1[h.length]? =
      some { error := ErrVal.foreign fmessage, stackTrace := [getCaller rc 2],
             additionalInfo := [] } ∧
    (New rc fmessage h).1[h.length]?.map (fun e => e.stackTrace.length) = some 1 := by
  refine ⟨rfl, rfl, ?_, ?_⟩ <;>
    simp [New, List.getElem?_concat_length]

/-- C3: wrapping a non-nil foreign (non-annotated) error produces a new
Annotated Error whose `Unwrap` returns exactly the original value, whose
trace has length 1, and whose contexts equal the given details in order. -/
theorem wrap_foreign_one_level (rc : Nat → Option (String × Nat)) (m : String)
    (details : List String) (h : Heap) :
    (Wrap rc (some (ErrVal.foreign m)) details h).2 = some (ErrVal.ref h.length) ∧
    (Wrap rc (some (ErrVal.foreign m)) details h).1[h.length]? =
      some { error := ErrVal.foreign m, stackTrace := [getCaller rc 2],
             additionalInfo := details } ∧
    (Wrap rc (some (ErrVal.foreign m)) details h).1[h.length]?.map Error.Unwrap =
      some (ErrVal.foreign m) ∧
    (Wrap rc (some (ErrVal.foreign m)) details h).1[h.length]?.map
      (fun e => e.stackTrace.length) = some 1 ∧
    (Wrap rc (some (ErrVal.foreign m)) details h).1[h.length]?.map
      (fun e => e.additionalInfo) = some details := by
  refine ⟨rfl, ?_, ?_, ?_, ?_⟩ <;>
    simp [Wrap, List.getElem?_concat_length, Error.Unwrap]

/-- C8: for every input error, `Wrapf` behaves exactly like `Wrap` with
the single context string produced by formatting the message (the
host-formatter result, shared with `New`, is the `fmessage` parameter). -/
theorem Wrapf_is_Wrap_with_one_context (rc : Nat → Option (String × Nat))
    (err : Option ErrVal) (fmessage : String) (h : Heap) :
    Wrapf rc err fmessage h = Wrap rc err [fmessage] h := by
  cases err with
  | none => rfl
  | some e =>
    cases e with
    | foreign m => rfl
    | ref r =>
      cases hr : h[r]? with
      | some rec => simp [Wrap, Wrapf, hr]
      | none => simp [Wrap, Wrapf, hr]

end Ers

namespace Ers

/-- C1: wrapping a value that is already an Annotated Error mutates it in
place — appending exactly one captured location to its trace and all
details, in the order given, to its contexts — returns the very same
pointer and allocates nothing; in particular, starting from
`e := New("base")`, `Wrap(e, "a")` then `Wrap(·, "b")` yields one object
at the same address whose trace has length 3 and whose contexts are
`["a", "b"]`. -/
theorem wrap_annotated_in_place (rc rc1 rc2 rc3 : Nat → Option (String × Nat))
    (h : Heap) (r : Nat) (rec : Error) (details : List String)
    (hr : h[r]? = some rec) :
    (Wrap rc (some (ErrVal.ref r)) details h).2 = some (ErrVal.ref r) ∧
    (Wrap rc (some (ErrVal.ref r)) details h).1 =
      h.set r { error := rec.error,
                stackTrace := rec.stackTrace ++ [getCaller rc 2],
                additionalInfo := rec.additionalInfo ++ details } ∧
    (Wrap rc (some (ErrVal.ref r)) details h).1.length = h.length ∧
    (let s0 := New rc1 "base" ([] : Heap)
     let s1 := Wrap rc2 (some s0.2) ["a"] s0.1
     let s2 := Wrap rc3 s1.2 ["b"] s1.1
     s0.2 = ErrVal.ref 0 ∧ s1.2 = some s0.2 ∧ s2.2 = some s0.2 ∧
     s2.1[0]?.map (fun e => e.stackTrace) =
       some [getCaller rc1 2, getCaller rc2 2, getCaller rc3 2] ∧
     s2.1[0]?.map (fun e => e.stackTrace.length) = some 3 ∧
     s2.1[0]?.map (fun e => e.additionalInfo) = some ["a", "b"]) := by
  refine ⟨?_, ?_, ?_, ?_⟩
  · simp [Wrap, hr]
  · simp [Wrap, hr, Error.addToStack, Error.AddInfo]
  · simp [Wrap, hr]
  · exact ⟨rfl, rfl, rfl, rfl, rfl, rfl⟩

theorem wrap_annotated_in_place_witness :
    (Wrap sampleRC (some (ErrVal.ref 0)) ["d1", "d2"] sampleHeap).2
      = some (ErrVal.ref 0) ∧
    (Wrap sampleRC (some (ErrVal.ref 0)) ["d1", "d2"] sampleHeap).1 =
      sampleHeap.set 0 { error := sampleRec.error,
                         stackTrace := sampleRec.stackTrace ++ [getCaller sampleRC 2],
                         additionalInfo := sampleRec.additionalInfo ++ ["d1", "d2"] } ∧
    (Wrap sampleRC (some (ErrVal.ref 0)) ["d1", "d2"] sampleHeap).1.length
      = sampleHeap.length ∧
    (let s0 := New sampleRC "base" ([] : Heap)
     let s1 := Wrap sampleRC2 (some s0.2) ["a"] s0.1
     let s2 := Wrap sampleRC3 s1.2 ["b"] s1.1
     s0.2 = ErrVal.ref 0 ∧ s1.2 = some s0.2 ∧ s2.2 = some s0.2 ∧
     s2.1[0]?.map (fun e => e.stackTrace) =
       some [getCaller sampleRC 2, getCaller sampleRC2 2, getCaller sampleRC3 2] ∧
     s2.1[0]?.map (fun e => e.stackTrace.length) = some 3 ∧
     s2.1[0]?.map (fun e => e.additionalInfo) = some ["a", "b"]) :=
  wrap_annotated_in_place sampleRC sampleRC sampleRC2 sampleRC3 sampleHeap 0
    sampleRec ["d1", "d2"] rfl

/-- C5: the full rendering of an Annotated Error is exactly the cause's
own text, a blank line, then — when contexts exist — the context header
line, the context block, a single newline and the stack-trace block, and
otherwise the stack-trace block directly; the stack-trace block is its
header line followed by the rendered trace. -/
theorem error_text_layout (h : Heap) (fuel r : Nat) (rec : Error)
    (hr : h[r]? = some rec) :
    errorText h (fuel + 1) (ErrVal.ref r) =
      if rec.additionalInfo = [] then
        errorText h fuel rec.error ++ "\n" ++ "\n"
          ++ "• stack trace (most recent call last) •" ++ "\n" ++ rec.StackTrace
      else
        errorText h fuel rec.error ++ "\n" ++ "\n"
          ++ "~ additional context (most recent last) ~" ++ "\n" ++ rec.AdditionalInfo
          ++ "\n"
          ++ "• stack trace (most recent call last) •" ++ "\n" ++ rec.StackTrace := by
  have h1 : errorText h (fuel + 1) (ErrVal.ref r)
      = rec.render (errorText h fuel rec.error) := by
    simp [errorText, hr]
  rw [h1]
  cases hinfo : rec.additionalInfo with
  | nil =>
    rw [if_pos rfl]
    simp only [Error.render, hinfo]
    simp only [List.length_nil, Nat.lt_irrefl, if_false]
    apply String.ext
    simp [List.append_assoc]
  | cons c cs =>
    rw [if_neg (by simp)]
    simp only [Error.render, hinfo]
    rw [if_pos (by simp)]
    apply String.ext
    simp [List.append_assoc]

theorem error_text_layout_witness :
    errorText sampleHeap (0 + 1) (ErrVal.ref 0) =
      if sampleRec.additionalInfo = [] then
        errorText sampleHeap 0 sampleRec.error ++ "\n" ++ "\n"
          ++ "• stack trace (most recent call last) •" ++ "\n" ++ sampleRec.StackTrace
      else
        errorText sampleHeap 0 sampleRec.error ++ "\n" ++ "\n"
          ++ "~ additional context (most recent last) ~" ++ "\n"
          ++ sampleRec.AdditionalInfo ++ "\n"
          ++ "• stack trace (most recent call last) •" ++ "\n"
          ++ sampleRec.StackTrace :=
  error_text_layout sampleHeap 0 0 sampleRec rfl

end Ers

namespace Ers

theorem tracesNonempty_append_rec (h : Heap) (rec : Error)
    (hinv : TracesNonempty h) (hrec : rec.stackTrace ≠ []) :
    TracesNonempty (h ++ [rec]) := by
  intro e he
  rcases List.mem_append.1 he with h1 | h1
  · exact hinv e h1
  · rw [List.mem_singleton] at h1
    rw [h1]
    exact hrec

theorem tracesNonempty_set_rec (h : Heap) (r : Nat) (rec : Error)
    (hinv : TracesNonempty h) (hrec : rec.stackTrace ≠ []) :
    TracesNonempty (h.set r rec) := by
  intro e he
  rcases List.mem_or_eq_of_mem_set he with h1 | h1
  · exact hinv e h1
  · rw [h1]
    exact hrec

/-- C9: starting from any heap whose records all have non-empty traces
(creation always captures one location), every operation of the library —
`New`, `Wrap`, `Wrapf`, `AddInfo` — leaves every record, old or new, with
a non-empty trace: no operation can produce or leave an Annotated Error
with an empty trace. -/
theorem traces_never_empty (rc : Nat → Option (String × Nat)) (h : Heap)
    (fmessage : String) (details info : List String) (err : Option ErrVal)
    (r : Nat) (hinv : TracesNonempty h) :
    TracesNonempty (New rc fmessage h).1 ∧
    TracesNonempty (Wrap rc err details h).1 ∧
    TracesNonempty (Wrapf rc err fmessage h).1 ∧
    TracesNonempty (AddInfoAt r info h) := by
  refine ⟨?_, ?_, ?_, ?_⟩
  · exact tracesNonempty_append_rec h _ hinv (by simp)
  · cases err with
    | none => exact hinv
    | some e =>
      cases e with
      | foreign m => exact tracesNonempty_append_rec h _ hinv (by simp)
      | ref rr =>
        cases hrr : h[rr]? with
        | some rec0 =>
          have heq : (Wrap rc (some (ErrVal.ref rr)) details h).1
              = h.set rr ((rec0.addToStack (getCaller rc 2)).AddInfo details) := by
            simp [Wrap, hrr]
          rw [heq]
          exact tracesNonempty_set_rec h rr _ hinv
            (by simp [Error.addToStack, Error.AddInfo])
        | none =>
          have heq : (Wrap rc (some (ErrVal.ref rr)) details h).1 = h := by
            simp [Wrap, hrr]
          rw [heq]
          exact hinv
  · cases err with
    | none => exact hinv
    | some e =>
      cases e with
      | foreign m => exact tracesNonempty_append_rec h _ hinv (by simp)
      | ref rr =>
        cases hrr : h[rr]? with
        | some rec0 =>
          have heq : (Wrapf rc (some (ErrVal.ref rr)) fmessage h).1
              = h.set rr ((rec0.addToStack (getCaller rc 2)).AddInfo [fmessage]) := by
            simp [Wrapf, hrr]
          rw [heq]
          exact tracesNonempty_set_rec h rr _ hinv
            (by simp [Error.addToStack, Error.AddInfo])
        | none =>
          have heq : (Wrapf rc (some (ErrVal.ref rr)) fmessage h).1 = h := by
            simp [Wrapf, hrr]
          rw [heq]
          exact hinv
  · cases hrr : h[r]? with
    | some rec0 =>
      have heq : AddInfoAt r info h = h.set r (rec0.AddInfo info) := by
        simp [AddInfoAt, hrr]
      rw [heq]
      refine tracesNonempty_set_rec h r _ hinv ?_
      have hmem : rec0 ∈ h := List.getElem?_mem hrr
      have hne := hinv rec0 hmem
      simpa [Error.AddInfo] using hne
    | none =>
      have heq : AddInfoAt r info h = h := by
        simp [AddInfoAt, hrr]
      rw [heq]
      exact hinv

theorem traces_never_empty_witness :
    TracesNonempty (New sampleRC "m" sampleHeap).1 ∧
    TracesNonempty (Wrap sampleRC (some (ErrVal.ref 0)) ["d"] sampleHeap).1 ∧
    TracesNonempty (Wrapf sampleRC (some (ErrVal.ref 0)) "m" sampleHeap).1 ∧
    TracesNonempty (AddInfoAt 0 ["i"] sampleHeap) :=
  traces_never_empty sampleRC sampleHeap "m" ["d"] ["i"]
    (some (ErrVal.ref 0)) 0 (by decide)

/-- C10: `Wrap`, `Wrapf` and the append-context operation applied to an
existing Annotated Error leave its cause unchanged and keep every
previously stored trace and context entry in place: the old trace is a
prefix of the new trace and the old contexts are a prefix of the new
contexts. -/
theorem extend_ops_frame (rc : Nat → Option (String × Nat)) (h : Heap)
    (r : Nat) (rec : Error) (details info : List String) (fmessage : String)
    (hr : h[r]? = some rec) :
    (∃ rec1, (Wrap rc (some (ErrVal.ref r)) details h).1[r]? = some rec1 ∧
      rec1.error = rec.error ∧ rec.stackTrace <+: rec1.stackTrace ∧
      rec.additionalInfo <+: rec1.additionalInfo) ∧
    (∃ rec2, (Wrapf rc (some (ErrVal.ref r)) fmessage h).1[r]? = some rec2 ∧
      rec2.error = rec.error ∧ rec.stackTrace <+: rec2.stackTrace ∧
      rec.additionalInfo <+: rec2.additionalInfo) ∧
    (∃ rec3, (AddInfoAt r info h)[r]? = some rec3 ∧
      rec3.error = rec.error ∧ rec.stackTrace <+: rec3.stackTrace ∧
      rec.additionalInfo <+: rec3.additionalInfo) := by
  have hlt : r < h.length := by
    rcases List.getElem?_eq_some.1 hr with ⟨hl, _⟩
    exact hl
  refine ⟨⟨(rec.addToStack (getCaller rc 2)).AddInfo details, ?_, rfl,
      ⟨[getCaller rc 2], rfl⟩, ⟨details, rfl⟩⟩,
    ⟨(rec.addToStack (getCaller rc 2)).AddInfo [fmessage], ?_, rfl,
      ⟨[getCaller rc 2], rfl⟩, ⟨[fmessage], rfl⟩⟩,
    ⟨rec.AddInfo info, ?_, rfl, ⟨[], by simp [Error.AddInfo]⟩, ⟨info, rfl⟩⟩⟩
  · have heq : (Wrap rc (some (ErrVal.ref r)) details h).1
        = h.set r ((rec.addToStack (getCaller rc 2)).AddInfo details) := by
      simp [Wrap, hr]
    rw [heq]
    exact List.getElem?_set_eq_of_lt _ hlt
  · have heq : (Wrapf rc (some (ErrVal.ref r)) fmessage h).1
        = h.set r ((rec.addToStack (getCaller rc 2)).AddInfo [fmessage]) := by
      simp [Wrapf, hr]
    rw [heq]
    exact List.getElem?_set_eq_of_lt _ hlt
  · have heq : AddInfoAt r info h = h.set r (rec.AddInfo info) := by
      simp [AddInfoAt, hr]
    rw [heq]
    exact List.getElem?_set_eq_of_lt _ hlt

theorem extend_ops_frame_witness :
    (∃ rec1, (Wrap sampleRC (some (ErrVal.ref 0)) ["d"] sampleHeap).1[0]? = some rec1 ∧
      rec1.error = sampleRec.error ∧ sampleRec.stackTrace <+: rec1.stackTrace ∧
      sampleRec.additionalInfo <+: rec1.additionalInfo) ∧
    (∃ rec2, (Wrapf sampleRC (some (ErrVal.ref 0)) "m" sampleHeap).1[0]? = some rec2 ∧
      rec2.error = sampleRec.error ∧ sampleRec.stackTrace <+: rec2.stackTrace ∧
      sampleRec.additionalInfo <+: rec2.additionalInfo) ∧
    (∃ rec3, (AddInfoAt 0 ["i"] sampleHeap)[0]? = some rec3 ∧
      rec3.error = sampleRec.error ∧ sampleRec.stackTrace <+: rec3.stackTrace ∧
      sampleRec.additionalInfo <+: rec3.additionalInfo) :=
  extend_ops_frame sampleRC sampleHeap 0 sampleRec ["d"] ["i"] "m" rfl

end Ers
